import Mathlib

set_option linter.unusedTactic false

/-!
# linuxdiskexporter: a shallow embedding of `main.go`

The program answers `GET /{hostname}/diskstats` by running `df -h /dev/<hostname>` and
turning the first output line that has at least six whitespace-delimited fields into one
`DiskStat` record.

Conventions of the embedding.

* Go strings are Lean `String`s (sequences of Unicode scalar values): the command output is
  taken to be UTF-8 text, as the collaborator contract of the specification states.
* `int64` is `Int` with explicit two's-complement wrapping (`toInt64`); `uint64` is `Nat`
  reduced modulo `2^64 = 18446744073709551616`.
* A Go function that can panic returns `Except RuntimeError _`; the Go pair
  `([]DiskStat, error)` is the pair `List DiskStat × Option GoError`, `nil` being `[]` / `none`.
* `float64` and `strconv.ParseFloat` are not modelled: the float type `F` and the parser are
  parameters of the embedding (`parseFloat`). The external command `exec.Command(..).Output()`
  is the parameter `output`, a function from the argument vector to the captured text and the
  command's error.
* The library functions `strings.Split`, `strings.Fields`, `unicode.IsSpace`,
  `strconv.ParseUint` and `strconv.ParseInt` are transcribed from the Go standard library,
  specialised to the arguments of their call sites in `main.go`.
-/

namespace DiskExporter

/-! ## Library: `unicode.IsSpace`, `strings.Split`, `strings.Fields` -/

/-- Go `unicode.IsSpace`: the Latin-1 switch, then the `White_Space` range table. -/
def IsSpace (r : Char) : Bool :=
  let n := r.toNat
  if n ≤ 0xFF then
    n == 0x09 || n == 0x0A || n == 0x0B || n == 0x0C || n == 0x0D || n == 0x20 ||
      n == 0x85 || n == 0xA0
  else
    n == 0x1680 || (0x2000 ≤ n && n ≤ 0x200A) || n == 0x2028 || n == 0x2029 ||
      n == 0x202F || n == 0x205F || n == 0x3000

/-- The scan of `strings.Split(s, sep)` for a one-character separator: `cur` holds the
characters seen since the last separator. Every separator closes a piece, and the end of the
text closes the last one, so `n` separators give `n + 1` pieces. -/
def splitLoop (sep : Char) : List Char → List Char → List String
  | [], cur => [String.mk cur]
  | c :: cs, cur =>
    if c = sep then String.mk cur :: splitLoop sep cs [] else splitLoop sep cs (cur ++ [c])

/-- Go `strings.Split(s, sep)` for the one-character separators used in `main.go`
(`"\n"` and `"/"`). -/
def Split (s : String) (sep : Char) : List String :=
  splitLoop sep s.data []

/-- The scan of `strings.Fields`: `cur` holds the characters of the field being read (empty
between fields). A white-space character closes the current field if there is one; the end of
the text closes the last field. -/
def fieldsLoop : List Char → List Char → List String
  | [], cur => if cur = [] then [] else [String.mk cur]
  | c :: cs, cur =>
    if IsSpace c then
      if cur = [] then fieldsLoop cs [] else String.mk cur :: fieldsLoop cs []
    else
      fieldsLoop cs (cur ++ [c])

/-- Go `strings.Fields(s)`: the maximal runs of non-white-space characters of `s`. -/
def Fields (s : String) : List String :=
  fieldsLoop s.data []

/-! ## Library: `strconv.ParseUint` and `strconv.ParseInt` at base 10, bit size 64 -/

/-- The `Err` of a `*strconv.NumError`. -/
inductive NumError where
  | ErrSyntax
  | ErrRange
  deriving DecidableEq, Repr

/-- Largest `uint64`, `1<<64 - 1`. -/
def maxUint64 : Nat := 18446744073709551615

/-- The `cutoff` of `ParseUint` for base 10: `maxUint64/10 + 1`, the smallest number whose
tenfold exceeds `maxUint64`. -/
def cutoff10 : Nat := 1844674407370955162

/-- Go `lower(c)`: `c | ('x' - 'X')`. -/
def lower (c : Nat) : Nat := c ||| 0x20

/-- The digit loop of `strconv.ParseUint(s, 10, 64)`. `n` is the `uint64` accumulator. A
character that is no digit of base 10 ends the parse with `(0, ErrSyntax)`; an accumulator
that would leave the `uint64` range ends it at once with `(maxUint64, ErrRange)`, the
rest of the text unread. (The underscore case of the Go loop needs `base == 0` and is never
taken at base 10. Go reads bytes; a character beyond ASCII is a sequence of bytes `≥ 0x80`,
none of them a digit or letter, just as its code point here.) -/
def parseUintLoop : List Char → Nat → Nat × Option NumError
  | [], n => (n, none)
  | c :: cs, n =>
    let b := c.toNat
    if 48 ≤ b ∧ b ≤ 57 then
      let d := b - 48
      if d ≥ 10 then (0, some NumError.ErrSyntax)
      else if n ≥ cutoff10 then (maxUint64, some NumError.ErrRange)
      else
        let n10 := n * 10 % 18446744073709551616
        let n1 := (n10 + d) % 18446744073709551616
        if n1 < n10 ∨ n1 > maxUint64 then (maxUint64, some NumError.ErrRange)
        else parseUintLoop cs n1
    else if 97 ≤ lower b ∧ lower b ≤ 122 then
      let d := lower b - 97 + 10
      if d ≥ 10 then (0, some NumError.ErrSyntax)
      else if n ≥ cutoff10 then (maxUint64, some NumError.ErrRange)
      else
        let n10 := n * 10 % 18446744073709551616
        let n1 := (n10 + d) % 18446744073709551616
        if n1 < n10 ∨ n1 > maxUint64 then (maxUint64, some NumError.ErrRange)
        else parseUintLoop cs n1
    else (0, some NumError.ErrSyntax)

/-- Go `strconv.ParseUint(s, 10, 64)` on the characters of `s`. -/
def ParseUint (s : List Char) : Nat × Option NumError :=
  if s = [] then (0, some NumError.ErrSyntax) else parseUintLoop s 0

/-- The conversion to `int64`: reduction modulo `2^64` into `[-2^63, 2^63)`. -/
def toInt64 (x : Int) : Int :=
  (x + 9223372036854775808) % 18446744073709551616 - 9223372036854775808

/-- Go `strconv.ParseInt(s, 10, 64)`: the value and the error it returns together. A syntax
error comes with 0, a range error with the nearest bound of `int64`. -/
def ParseInt (s : String) : Int × Option NumError :=
  match s.data with
  | [] => (0, some NumError.ErrSyntax)
  | c :: rest =>
    let neg : Bool := decide (c = '-')
    let body := if c = '+' then rest else if c = '-' then rest else c :: rest
    let r := ParseUint body
    let un := r.1
    if r.2 = some NumError.ErrSyntax then (0, some NumError.ErrSyntax)
    else
      let cutoff : Nat := 9223372036854775808
      if neg = false ∧ un ≥ cutoff then (((cutoff - 1 : Nat) : Int), some NumError.ErrRange)
      else if neg = true ∧ un > cutoff then (-(cutoff : Int), some NumError.ErrRange)
      else
        let n := toInt64 (un : Int)
        (if neg then toInt64 (-n) else n, none)

/-! ## Data model of `main.go` -/

/-- The struct `DiskStat`; `F` stands for `float64`. The Go field `Type` is `Type_` here. -/
structure DiskStat (F : Type) where
  HostName : String
  Path : String
  Size : Int
  Used : F
  Type_ : String
  Read : F
  Write : F
  deriving DecidableEq, Repr

/-- The errors `getDiskStatsForHostname` returns: the error of the external command, passed
on as it is, or the error built by `fmt.Errorf`. -/
inductive GoError where
  | exec (e : String)
  | errorf (msg : String)
  deriving DecidableEq, Repr

/-- A Go run-time panic: `index out of range [index] with length len`. -/
inductive RuntimeError where
  | indexOutOfRange (index len : Nat)
  deriving DecidableEq, Repr

instance instDecidableEqExcept {ε α : Type} [DecidableEq ε] [DecidableEq α] :
    DecidableEq (Except ε α)
  | Except.ok a, Except.ok b =>
    if h : a = b then isTrue (by rw [h]) else isFalse (fun h2 => h (Except.ok.inj h2))
  | Except.error a, Except.error b =>
    if h : a = b then isTrue (by rw [h]) else isFalse (fun h2 => h (Except.error.inj h2))
  | Except.ok _, Except.error _ => isFalse (fun h => Except.noConfusion h)
  | Except.error _, Except.ok _ => isFalse (fun h => Except.noConfusion h)

/-- The slice index expression `xs[i]`, which panics when `i` is out of range. -/
def index {α : Type} (xs : List α) (i : Nat) : Except RuntimeError α :=
  match xs.get? i with
  | some x => Except.ok x
  | none => Except.error (RuntimeError.indexOutOfRange i xs.length)

/-! ## The functions of `main.go` -/

/-- Go `isValidHostname`: `len(hostname) > 0`, the length being the number of bytes. -/
def isValidHostname (hostname : String) : Bool :=
  decide (hostname.utf8ByteSize > 0)

/-- The body of the `for _, line := range lines` loop of `getDiskStatsForHostname` together
with the `return` after it. A line with fewer than 6 fields is skipped; the first other line
is indexed at 1, 2, 8, 9 and 0 (in this order, each index panicking when out of range) and
returned as the one record; when the lines run out the `fmt.Errorf` error is returned. -/
def statsLoop {F : Type} (parseFloat : String → F × Option NumError) (hostName : String) :
    List String → Except RuntimeError (List (DiskStat F) × Option GoError)
  | [] =>
    Except.ok ([], some (GoError.errorf ("no disk statistics found for hostname " ++ hostName)))
  | line :: rest =>
    let fields := Fields line
    if fields.length < 6 then statsLoop parseFloat hostName rest
    else do
      let f1 ← index fields 1
      let size := (ParseInt f1).1
      let f2 ← index fields 2
      let used := (parseFloat f2).1
      let f8 ← index fields 8
      let read := (parseFloat f8).1
      let f9 ← index fields 9
      let write := (parseFloat f9).1
      let f0 ← index fields 0
      Except.ok ([{ HostName := hostName, Path := "/dev/" ++ hostName, Size := size,
                    Used := used, Type_ := f0, Read := read, Write := write }], none)

/-- Go `getDiskStatsForHostname`. `output argv` is `exec.Command(argv...).Output()`: the text
captured from the command and the command's error. -/
def getDiskStatsForHostname {F : Type} (parseFloat : String → F × Option NumError)
    (output : List String → String × Option String) (hostName : String) :
    Except RuntimeError (List (DiskStat F) × Option GoError) :=
  let r := output ["df", "-h", "/dev/" ++ hostName]
  match r.2 with
  | some err => Except.ok ([], some (GoError.exec err))
  | none => statsLoop parseFloat hostName (Split r.1 '\n')

/-- What the handler writes: `http.Error(w, body, status)`, or the JSON encoding of what
`getDiskStatsForHostname` returned. -/
inductive Response (F : Type) where
  | httpError (body : String) (status : Nat)
  | encoded (stats : List (DiskStat F) × Option GoError)
  deriving DecidableEq

/-- Go `getDiskStats`, as a function of the request path `r.URL.Path`. The source writes
`r.URL.Path.Split("/")`, read here as `strings.Split(r.URL.Path, "/")`; the handler passes on
a panic of `getDiskStatsForHostname`. -/
def getDiskStats {F : Type} (parseFloat : String → F × Option NumError)
    (output : List String → String × Option String) (path : String) :
    Except RuntimeError (Response F) := do
  let parts := Split path '/'
  let hostName ←
    if parts.length > 1 then do
      let p1 ← index parts 1
      if p1 = "diskstats" then index parts 0 else Except.ok ""
    else Except.ok ""
  if ¬ isValidHostname hostName then
    Except.ok (Response.httpError "Invalid hostname" 400)
  else do
    let stats ← getDiskStatsForHostname parseFloat output hostName
    Except.ok (Response.encoded stats)

/-! ## Sample parameters for the worked examples -/

/-- A stand-in for `strconv.ParseFloat(s, 64)` on the strings of the worked examples, with
integers for the `float64` values: `"45.0"`, `"100"` and `"50"` parse to 45, 100 and 50; any
other string counts as a syntax error, which comes with 0. -/
def sampleParseFloat (s : String) : Int × Option NumError :=
  if s = "45.0" then (45, none)
  else if s = "100" then (100, none)
  else if s = "50" then (50, none)
  else (0, some NumError.ErrSyntax)

/-- A command that succeeds with the text `text` whatever its arguments. -/
def commandPrinting (text : String) : List String → String × Option String :=
  fun _ => (text, none)

/-! ## Reading a decimal numeral, as the specification words it -/

/-- A decimal digit, `'0'` to `'9'`. -/
def isDigit (c : Char) : Bool := decide (48 ≤ c.toNat ∧ c.toNat ≤ 57)

/-- The number a run of decimal digits denotes on top of the value `n` already read. -/
def decVal : List Char → Nat → Nat
  | [], n => n
  | c :: cs, n => decVal cs (n * 10 + (c.toNat - 48))

/-- A run of digits: not empty, digits only. -/
def isDigits (cs : List Char) : Bool := !cs.isEmpty && cs.all isDigit

/-- The integer a decimal numeral denotes: one or more digits after an optional sign. Text of
any other shape denotes nothing. -/
def numeralValue (s : String) : Option Int :=
  match s.data with
  | [] => none
  | c :: rest =>
    if c = '+' then (if isDigits rest then some (decVal rest 0 : Int) else none)
    else if c = '-' then (if isDigits rest then some (-(decVal rest 0 : Int)) else none)
    else if isDigits (c :: rest) then some (decVal (c :: rest) 0 : Int) else none

/-- The digits that the integer parse reads before it meets a character that is no digit: the
text without its sign, up to the first non-digit. -/
def leadingDigits (s : String) : List Char :=
  match s.data with
  | [] => []
  | c :: rest =>
    (if c = '+' then rest else if c = '-' then rest else c :: rest).takeWhile isDigit

/-- The text that `ParseInt` hands to `ParseUint`: `s` without its sign. -/
def unsignedPart (c : Char) (rest : List Char) : List Char :=
  if c = '+' then rest else if c = '-' then rest else c :: rest

/-- The record built from the fields of a qualifying line. -/
def recordOf {F : Type} (parseFloat : String → F × Option NumError) (hostName : String)
    (f0 f1 f2 f8 f9 : String) : DiskStat F :=
  { HostName := hostName, Path := "/dev/" ++ hostName, Size := (ParseInt f1).1,
    Used := (parseFloat f2).1, Type_ := f0, Read := (parseFloat f8).1,
    Write := (parseFloat f9).1 }

/-- The result of `getDiskStatsForHostname` when no line qualifies. -/
def noStatsFound {F : Type} (hostName : String) : List (DiskStat F) × Option GoError :=
  ([], some (GoError.errorf ("no disk statistics found for hostname " ++ hostName)))

/-- The record of the line `ext4 1000000 45.0 a b c d e 100 50` for host name `sda1`, with
the sample float parser. -/
def sampleRecord : DiskStat Int :=
  { HostName := "sda1", Path := "/dev/sda1", Size := 1000000, Used := 45, Type_ := "ext4",
    Read := 100, Write := 50 }

/-- A command that fails with the error `e`, having printed `text` before. -/
def commandFailing (text e : String) : List String → String × Option String :=
  fun _ => (text, some e)

/-- A command that prints `text` when run with the arguments `argv` and fails on any other
arguments. -/
def commandExpecting (argv : List String) (text : String) :
    List String → String × Option String :=
  fun a => if a = argv then (text, none) else ("", some "unexpected arguments")

/-- The text with every line ending `\n` replaced by `\r\n`. -/
def crlf : List Char → List Char
  | [] => []
  | c :: cs => if c = '\n' then '\r' :: '\n' :: crlf cs else c :: crlf cs

/-- A run of spaces and tabs: not empty, spaces and tabs only. -/
def isBlankRun (run : List Char) : Bool :=
  !run.isEmpty && run.all (fun c => c = ' ' || c = '\t')

/-! ## Facts about the parsers -/

theorem le_decVal (cs : List Char) (n : Nat) : n ≤ decVal cs n := by
  induction cs generalizing n with
  | nil => simp [decVal]
  | cons c cs ih =>
    have := ih (n * 10 + (c.toNat - 48))
    simp only [decVal]
    omega

/-- On a run of digits whose value fits `uint64`, the loop of `ParseUint` returns that value
and no error. -/
theorem parseUintLoop_digits (cs : List Char) (n : Nat)
    (hd : cs.all isDigit = true) (hv : decVal cs n ≤ maxUint64) :
    parseUintLoop cs n = (decVal cs n, none) := by
  induction cs generalizing n with
  | nil => simp [parseUintLoop, decVal]
  | cons c cs ih =>
    simp only [List.all_cons, Bool.and_eq_true, isDigit, decide_eq_true_eq] at hd
    obtain ⟨hc, hcs⟩ := hd
    simp only [decVal] at hv ⊢
    have hle := le_decVal cs (n * 10 + (c.toNat - 48))
    have hih := ih (n * 10 + (c.toNat - 48)) hcs hv
    simp only [maxUint64] at hv
    have h1 : n * 10 % 18446744073709551616 = n * 10 := by omega
    have h2 : (n * 10 + (c.toNat - 48)) % 18446744073709551616 = n * 10 + (c.toNat - 48) := by
      omega
    have h3 : ¬ (c.toNat - 48 ≥ 10) := by omega
    have h4 : ¬ (n ≥ cutoff10) := by simp only [cutoff10]; omega
    have h5 : ¬ (n * 10 + (c.toNat - 48) < n * 10 ∨ n * 10 + (c.toNat - 48) > maxUint64) := by
      simp only [maxUint64]; omega
    simp only [parseUintLoop, hc, and_self, if_true, h1, h2, h3, h4, h5, if_false, hih]

/-- A syntax error of the loop of `ParseUint` comes with the value 0. -/
theorem parseUintLoop_syntax_zero (cs : List Char) (n : Nat)
    (h : (parseUintLoop cs n).2 = some NumError.ErrSyntax) : (parseUintLoop cs n).1 = 0 := by
  induction cs generalizing n with
  | nil => simp [parseUintLoop] at h
  | cons c cs ih =>
    simp only [parseUintLoop] at h ⊢
    split_ifs at h ⊢ <;> first | rfl | (simp at h; done) | exact ih _ h

/-- A range error of the loop of `ParseUint` comes with the value `maxUint64`. -/
theorem parseUintLoop_range_max (cs : List Char) (n : Nat)
    (h : (parseUintLoop cs n).2 = some NumError.ErrRange) :
    (parseUintLoop cs n).1 = maxUint64 := by
  induction cs generalizing n with
  | nil => simp [parseUintLoop] at h
  | cons c cs ih =>
    simp only [parseUintLoop] at h ⊢
    split_ifs at h ⊢ <;> first | rfl | (simp at h; done) | exact ih _ h

/-- The loop of `ParseUint` stays within `uint64`. -/
theorem parseUintLoop_le (cs : List Char) (n : Nat) (hn : n ≤ maxUint64) :
    (parseUintLoop cs n).1 ≤ maxUint64 := by
  induction cs generalizing n with
  | nil => simpa [parseUintLoop] using hn
  | cons c cs ih =>
    simp only [parseUintLoop]
    split_ifs <;> first | (simp [maxUint64]; done) | (apply ih; simp only [maxUint64]; omega)

/-- When the text holds a character that is no digit and the digits before the first such
character fit `uint64`, the loop of `ParseUint` ends in a syntax error. -/
theorem parseUintLoop_nondigit (cs : List Char) (n : Nat)
    (hnd : cs.all isDigit = false) (hv : decVal (cs.takeWhile isDigit) n ≤ maxUint64) :
    parseUintLoop cs n = (0, some NumError.ErrSyntax) := by
  induction cs generalizing n with
  | nil => simp at hnd
  | cons c cs ih =>
    by_cases hc : isDigit c = true
    · have hcs : cs.all isDigit = false := by simpa [List.all_cons, hc] using hnd
      simp only [List.takeWhile_cons, hc, if_true, decVal] at hv
      have hle := le_decVal (cs.takeWhile isDigit) (n * 10 + (c.toNat - 48))
      have hih := ih (n * 10 + (c.toNat - 48)) hcs hv
      simp only [isDigit, decide_eq_true_eq] at hc
      simp only [maxUint64] at hv
      have h1 : n * 10 % 18446744073709551616 = n * 10 := by omega
      have h2 : (n * 10 + (c.toNat - 48)) % 18446744073709551616 = n * 10 + (c.toNat - 48) := by
        omega
      have h3 : ¬ (c.toNat - 48 ≥ 10) := by omega
      have h4 : ¬ (n ≥ cutoff10) := by simp only [cutoff10]; omega
      have h5 : ¬ (n * 10 + (c.toNat - 48) < n * 10 ∨ n * 10 + (c.toNat - 48) > maxUint64) := by
        simp only [maxUint64]; omega
      simp only [parseUintLoop, hc, and_self, if_true, h1, h2, h3, h4, h5, if_false, hih]
    · simp only [isDigit, decide_eq_true_eq] at hc
      have h3 : lower c.toNat - 97 + 10 ≥ 10 := by omega
      simp only [parseUintLoop, hc, if_false, h3, if_true, ite_self]

theorem toInt64_range (x : Int) :
    -9223372036854775808 ≤ toInt64 x ∧ toInt64 x < 9223372036854775808 := by
  unfold toInt64
  omega

/-- A syntax error of `ParseUint` comes with the value 0. -/
theorem ParseUint_syntax_zero (cs : List Char) (h : (ParseUint cs).2 = some NumError.ErrSyntax) :
    (ParseUint cs).1 = 0 := by
  unfold ParseUint at h ⊢
  split_ifs at h ⊢
  · rfl
  · exact parseUintLoop_syntax_zero cs 0 h

theorem ParseUint_le (cs : List Char) : (ParseUint cs).1 ≤ maxUint64 := by
  unfold ParseUint
  split_ifs
  · simp [maxUint64]
  · exact parseUintLoop_le cs 0 (by simp [maxUint64])

/-- What `ParseUint` returns is either its value with no error, 0 with a syntax error, or
`maxUint64` with a range error. -/
theorem ParseUint_cases (cs : List Char) :
    (ParseUint cs).2 = none ∨ ParseUint cs = (0, some NumError.ErrSyntax) ∨
      ParseUint cs = (maxUint64, some NumError.ErrRange) := by
  rcases hr : (ParseUint cs).2 with _ | e
  · exact Or.inl rfl
  · cases e with
    | ErrSyntax =>
      refine Or.inr (Or.inl ?_)
      exact Prod.ext (ParseUint_syntax_zero cs hr) hr
    | ErrRange =>
      refine Or.inr (Or.inr ?_)
      have hv : (ParseUint cs).1 = maxUint64 := by
        unfold ParseUint at hr ⊢
        split_ifs at hr ⊢
        · simp at hr
        · exact parseUintLoop_range_max cs 0 hr
      exact Prod.ext hv hr

theorem ParseInt_cons (s : String) (c : Char) (rest : List Char) (hs : s.data = c :: rest) :
    ParseInt s =
      if (ParseUint (unsignedPart c rest)).2 = some NumError.ErrSyntax then
        (0, some NumError.ErrSyntax)
      else if decide (c = '-') = false ∧ (ParseUint (unsignedPart c rest)).1 ≥ 9223372036854775808
      then (9223372036854775807, some NumError.ErrRange)
      else if decide (c = '-') = true ∧ (ParseUint (unsignedPart c rest)).1 > 9223372036854775808
      then (-9223372036854775808, some NumError.ErrRange)
      else
        (if decide (c = '-') = true then
            toInt64 (-(toInt64 ((ParseUint (unsignedPart c rest)).1 : Int)))
          else toInt64 ((ParseUint (unsignedPart c rest)).1 : Int), none) := by
  unfold ParseInt
  rw [hs]
  simp only [unsignedPart]
  rfl

theorem ParseInt_nil (s : String) (hs : s.data = []) :
    ParseInt s = (0, some NumError.ErrSyntax) := by
  unfold ParseInt
  rw [hs]

/-- A syntax error of `ParseInt` comes with the value 0. -/
theorem ParseInt_syntax_zero (s : String) (h : (ParseInt s).2 = some NumError.ErrSyntax) :
    (ParseInt s).1 = 0 := by
  rcases hs : s.data with _ | ⟨c, rest⟩
  · rw [ParseInt_nil s hs]
  · rw [ParseInt_cons s c rest hs] at h ⊢
    split_ifs at h ⊢ <;> first | rfl | simp at h

/-- A range error of `ParseInt` comes with the bound of `int64` on the side of the sign. -/
theorem ParseInt_range_bound (s : String) (h : (ParseInt s).2 = some NumError.ErrRange) :
    ((ParseInt s).1 = 9223372036854775807 ∧ s.data.head? ≠ some '-') ∨
      ((ParseInt s).1 = -9223372036854775808 ∧ s.data.head? = some '-') := by
  rcases hs : s.data with _ | ⟨c, rest⟩
  · rw [ParseInt_nil s hs] at h
    simp at h
  · rw [ParseInt_cons s c rest hs] at h ⊢
    split_ifs at h ⊢ with h1 h2 h3
    · simp at h
    · left
      refine ⟨rfl, ?_⟩
      simpa using h2.1
    · right
      refine ⟨rfl, ?_⟩
      simpa using h3.1

/-- The value of `ParseInt` is an `int64`. -/
theorem ParseInt_bounds (s : String) :
    -9223372036854775808 ≤ (ParseInt s).1 ∧ (ParseInt s).1 < 9223372036854775808 := by
  rcases hs : s.data with _ | ⟨c, rest⟩
  · rw [ParseInt_nil s hs]
    simp
  · rw [ParseInt_cons s c rest hs]
    split_ifs
    · simp
    · simp
    · simp
    · exact toInt64_range _
    · exact toInt64_range _

/-- The value of `ParseInt` is negative only for a text that begins with `-`. -/
theorem ParseInt_neg (s : String) (h : (ParseInt s).1 < 0) : s.data.head? = some '-' := by
  rcases hs : s.data with _ | ⟨c, rest⟩
  · rw [ParseInt_nil s hs] at h
    simp at h
  · rw [ParseInt_cons s c rest hs] at h
    by_cases hc : c = '-'
    · simp [hc]
    · exfalso
      have hle := ParseUint_le (unsignedPart c rest)
      simp only [maxUint64] at hle
      split_ifs at h with h1 h2 h3 h4
      · simp at h
      · simp at h
      · simp [hc] at h3
      · simp [hc] at h4
      · simp only [hc, decide_False, true_and, not_le] at h2
        simp only [toInt64] at h
        omega

/-- On a decimal numeral whose value is an `int64`, `ParseInt` returns that value and no
error. -/
theorem ParseInt_numeral (s : String) (v : Int) (hv : numeralValue s = some v)
    (hlo : -9223372036854775808 ≤ v) (hhi : v < 9223372036854775808) :
    ParseInt s = (v, none) := by
  rcases hs : s.data with _ | ⟨c, rest⟩
  · simp [numeralValue, hs] at hv
  · rw [ParseInt_cons s c rest hs]
    simp only [numeralValue, hs] at hv
    have key : ∀ body : List Char, isDigits body = true → decVal body 0 ≤ maxUint64 →
        ParseUint body = (decVal body 0, none) := by
      intro body hb hm
      simp only [isDigits, Bool.and_eq_true, Bool.not_eq_true', List.isEmpty_eq_false] at hb
      unfold ParseUint
      have hne : body ≠ [] := by
        intro h0
        simp [h0] at hb
      rw [if_neg hne]
      exact parseUintLoop_digits body 0 hb.2 hm
    by_cases hp : c = '+'
    · subst hp
      simp only [if_true] at hv
      split_ifs at hv with hd
      simp only [Option.some.injEq] at hv
      have hu := key rest hd (by simp only [maxUint64]; omega)
      simp only [unsignedPart, if_true, hu]
      simp only [toInt64]
      simp +decide only [reduceCtorEq, if_false, decide_False, true_and, false_and]
      split_ifs <;> first | omega | (refine Prod.ext ?_ rfl; simp only; omega)
    · by_cases hm : c = '-'
      · subst hm
        simp only [if_neg hp, if_true] at hv
        split_ifs at hv with hd
        simp only [Option.some.injEq] at hv
        have hu := key rest hd (by simp only [maxUint64]; omega)
        simp only [unsignedPart, if_neg hp, if_true, hu]
        simp only [toInt64]
        simp +decide only [reduceCtorEq, if_false, decide_True, true_and, false_and,
          if_true]
        split_ifs <;> first | omega | (refine Prod.ext ?_ rfl; simp only; omega)
      · simp only [if_neg hp, if_neg hm] at hv
        split_ifs at hv with hd
        simp only [Option.some.injEq] at hv
        have hu := key (c :: rest) hd (by simp only [maxUint64]; omega)
        simp only [unsignedPart, if_neg hp, if_neg hm, hu]
        simp only [toInt64]
        simp only [reduceCtorEq, if_false, hm, decide_False, true_and, false_and]
        split_ifs <;> first | omega | (refine Prod.ext ?_ rfl; simp only; omega)

/-- On a text that is no decimal numeral, and whose digits before the first non-digit fit
`uint64`, `ParseInt` returns 0 and a syntax error. -/
theorem ParseInt_nonnumeral (s : String) (hv : numeralValue s = none)
    (hfit : decVal (leadingDigits s) 0 ≤ maxUint64) :
    ParseInt s = (0, some NumError.ErrSyntax) := by
  rcases hs : s.data with _ | ⟨c, rest⟩
  · exact ParseInt_nil s hs
  · rw [ParseInt_cons s c rest hs]
    simp only [numeralValue, hs] at hv
    simp only [leadingDigits, hs] at hfit
    have key : ∀ body : List Char, isDigits body = false →
        decVal (body.takeWhile isDigit) 0 ≤ maxUint64 →
        ParseUint body = (0, some NumError.ErrSyntax) := by
      intro body hb hm
      unfold ParseUint
      by_cases hne : body = []
      · rw [if_pos hne]
      · rw [if_neg hne]
        have hall : body.all isDigit = false := by
          simpa [isDigits, hne] using hb
        exact parseUintLoop_nondigit body 0 hall hm
    have hu : ParseUint (unsignedPart c rest) = (0, some NumError.ErrSyntax) := by
      by_cases hp : c = '+'
      · simp only [hp, if_true] at hv hfit
        simp only [unsignedPart, hp, if_true]
        refine key rest ?_ hfit
        by_contra hcon
        simp only [Bool.not_eq_false] at hcon
        simp [hcon] at hv
      · by_cases hm : c = '-'
        · simp only [hm, if_neg hp, if_true] at hv hfit
          simp only [unsignedPart, hm, if_neg hp, if_true]
          simp only [ite_self] at hfit
          refine key rest ?_ hfit
          by_contra hcon
          simp only [Bool.not_eq_false] at hcon
          simp [hcon] at hv
        · simp only [if_neg hp, if_neg hm] at hv hfit
          simp only [unsignedPart, if_neg hp, if_neg hm]
          refine key (c :: rest) ?_ hfit
          by_contra hcon
          simp only [Bool.not_eq_false] at hcon
          simp [hcon] at hv
    simp [hu]

/-! ## Facts about `strings.Split` -/

theorem splitLoop_append (sep : Char) (a b cur : List Char) (ha : sep ∉ a) :
    splitLoop sep (a ++ sep :: b) cur = String.mk (cur ++ a) :: splitLoop sep b [] := by
  induction a generalizing cur with
  | nil => simp [splitLoop]
  | cons c a ih =>
    have hc : c ≠ sep := fun h => ha (by simp [h])
    have ha2 : sep ∉ a := fun h => ha (by simp [h])
    rw [List.cons_append, splitLoop, if_neg hc, ih (cur ++ [c]) ha2]
    simp

theorem splitLoop_last (sep : Char) (a cur : List Char) (ha : sep ∉ a) :
    splitLoop sep a cur = [String.mk (cur ++ a)] := by
  induction a generalizing cur with
  | nil => simp [splitLoop]
  | cons c a ih =>
    have hc : c ≠ sep := fun h => ha (by simp [h])
    have ha2 : sep ∉ a := fun h => ha (by simp [h])
    rw [splitLoop, if_neg hc, ih (cur ++ [c]) ha2]
    simp

/-- The first piece of a text whose first separator follows `a`. -/
theorem Split_append (sep : Char) (a b : String) (ha : sep ∉ a.data) :
    Split (a ++ String.mk [sep] ++ b) sep = a :: Split b sep := by
  simp only [Split, String.data_append, List.append_assoc, List.singleton_append]
  rw [splitLoop_append sep a.data b.data [] ha]
  simp

theorem Split_last (sep : Char) (a : String) (ha : sep ∉ a.data) : Split a sep = [a] := by
  simp only [Split]
  rw [splitLoop_last sep a.data [] ha]
  simp

theorem splitLoop_ne_nil (sep : Char) (a cur : List Char) : splitLoop sep a cur ≠ [] := by
  induction a generalizing cur with
  | nil => simp [splitLoop]
  | cons c a ih =>
    simp only [splitLoop]
    split_ifs
    · simp
    · exact ih _

/-! ## Facts about the loop of `getDiskStatsForHostname` -/

theorem index_eq_ok {α : Type} (xs : List α) (i : Nat) (x : α) (h : xs.get? i = some x) :
    index xs i = Except.ok x := by
  unfold index
  rw [h]

theorem statsLoop_nil {F : Type} (pf : String → F × Option NumError) (h : String) :
    statsLoop pf h [] = Except.ok (noStatsFound h) := by
  simp [statsLoop, noStatsFound]

theorem statsLoop_short {F : Type} (pf : String → F × Option NumError) (h line : String)
    (rest : List String) (hl : (Fields line).length < 6) :
    statsLoop pf h (line :: rest) = statsLoop pf h rest := by
  simp [statsLoop, hl]

theorem statsLoop_skip {F : Type} (pf : String → F × Option NumError) (h : String)
    (skipped rest : List String) (hs : ∀ l ∈ skipped, (Fields l).length < 6) :
    statsLoop pf h (skipped ++ rest) = statsLoop pf h rest := by
  induction skipped with
  | nil => rfl
  | cons l ls ih =>
    rw [List.cons_append, statsLoop_short pf h l _ (hs l (by simp))]
    exact ih (fun x hx => hs x (by simp [hx]))

/-- A line with ten fields or more, at the head of the lines, gives the one record. -/
theorem statsLoop_ten {F : Type} (pf : String → F × Option NumError) (h line : String)
    (rest : List String) (f0 f1 f2 f3 f4 f5 f6 f7 f8 f9 : String) (more : List String)
    (hf : Fields line = f0 :: f1 :: f2 :: f3 :: f4 :: f5 :: f6 :: f7 :: f8 :: f9 :: more) :
    statsLoop pf h (line :: rest) = Except.ok ([recordOf pf h f0 f1 f2 f8 f9], none) := by
  simp [statsLoop, hf, index, recordOf, bind, Except.bind]

/-- A qualifying line with fewer than ten fields, at the head of the lines, makes the loop
panic on the index 8 or 9. -/
theorem statsLoop_panic {F : Type} (pf : String → F × Option NumError) (h line : String)
    (rest : List String) (h6 : 6 ≤ (Fields line).length) (h10 : (Fields line).length < 10) :
    statsLoop pf h (line :: rest) =
      Except.error (RuntimeError.indexOutOfRange (if (Fields line).length = 9 then 9 else 8)
        (Fields line).length) := by
  have hn : ¬ (Fields line).length < 6 := by omega
  rcases hfl : Fields line with _ | ⟨f0, _ | ⟨f1, _ | ⟨f2, _ | ⟨f3, _ | ⟨f4, _ | ⟨f5, _ |
    ⟨f6, _ | ⟨f7, _ | ⟨f8, _ | ⟨f9, more⟩⟩⟩⟩⟩⟩⟩⟩⟩⟩ <;>
    first
    | (exfalso; simp [hfl] at h6 h10 <;> omega)
    | simp [statsLoop, hfl, index, bind, Except.bind]

/-- What the loop returns when it returns: either no line qualifies and the result is the
`fmt.Errorf` error with no record, or the first qualifying line has ten fields or more and
the result is the record of that line with no error. -/
theorem statsLoop_ok {F : Type} (pf : String → F × Option NumError) (h : String)
    (lines : List String) (res : List (DiskStat F) × Option GoError)
    (hr : statsLoop pf h lines = Except.ok res) :
    (res = noStatsFound h ∧ ∀ l ∈ lines, (Fields l).length < 6) ∨
    ∃ (skipped : List String) (line : String) (rest : List String)
      (f0 f1 f2 f3 f4 f5 f6 f7 f8 f9 : String) (more : List String),
      lines = skipped ++ line :: rest ∧ (∀ l ∈ skipped, (Fields l).length < 6) ∧
      Fields line = f0 :: f1 :: f2 :: f3 :: f4 :: f5 :: f6 :: f7 :: f8 :: f9 :: more ∧
      res = ([recordOf pf h f0 f1 f2 f8 f9], none) := by
  induction lines with
  | nil =>
    left
    rw [statsLoop_nil] at hr
    exact ⟨(Except.ok.inj hr).symm, by simp⟩
  | cons l ls ih =>
    by_cases hl : (Fields l).length < 6
    · rw [statsLoop_short pf h l ls hl] at hr
      rcases ih hr with ⟨h1, h2⟩ | ⟨sk, line, rest, f0, f1, f2, f3, f4, f5, f6, f7, f8, f9,
        more, h1, h2, h3, h4⟩
      · left
        refine ⟨h1, ?_⟩
        intro x hx
        rcases List.mem_cons.mp hx with hx | hx
        · rw [hx]; exact hl
        · exact h2 x hx
      · right
        refine ⟨l :: sk, line, rest, f0, f1, f2, f3, f4, f5, f6, f7, f8, f9, more, ?_, ?_,
          h3, h4⟩
        · rw [h1]; rfl
        · intro x hx
          rcases List.mem_cons.mp hx with hx | hx
          · rw [hx]; exact hl
          · exact h2 x hx
    · right
      by_cases h10 : (Fields l).length < 10
      · rw [statsLoop_panic pf h l ls (by omega) h10] at hr
        cases hr
      · rcases hfl : Fields l with _ | ⟨f0, _ | ⟨f1, _ | ⟨f2, _ | ⟨f3, _ | ⟨f4, _ | ⟨f5, _ |
          ⟨f6, _ | ⟨f7, _ | ⟨f8, _ | ⟨f9, more⟩⟩⟩⟩⟩⟩⟩⟩⟩⟩ <;>
          try (exfalso; simp [hfl] at hl h10 <;> omega)
        rw [statsLoop_ten pf h l ls f0 f1 f2 f3 f4 f5 f6 f7 f8 f9 more hfl] at hr
        exact ⟨[], l, ls, f0, f1, f2, f3, f4, f5, f6, f7, f8, f9, more, rfl, by simp, hfl,
          (Except.ok.inj hr).symm⟩

theorem getDiskStatsForHostname_ok {F : Type} (pf : String → F × Option NumError)
    (output : List String → String × Option String) (hostName text : String)
    (hcmd : output ["df", "-h", "/dev/" ++ hostName] = (text, none)) :
    getDiskStatsForHostname pf output hostName = statsLoop pf hostName (Split text '\n') := by
  simp [getDiskStatsForHostname, hcmd]

theorem isValidHostname_iff (hostname : String) :
    isValidHostname hostname = true ↔ hostname ≠ "" := by
  obtain ⟨cs⟩ := hostname
  cases cs with
  | nil => simp [isValidHostname, String.utf8ByteSize, String.utf8ByteSize.go]
  | cons c cs =>
    have hpos := Char.utf8Size_pos c
    have hne : String.mk (c :: cs) ≠ "" := by
      intro h
      have := congrArg String.data h
      simp at this
    simp only [isValidHostname, String.utf8ByteSize, String.utf8ByteSize.go, gt_iff_lt,
      decide_eq_true_eq, ne_eq, hne, not_false_eq_true, iff_true]
    omega

/-- The two ways `getDiskStatsForHostname` returns: the command failed and its error is
passed on, or the command succeeded and the loop over the lines of its output returned. -/
theorem getDiskStatsForHostname_inv {F : Type} (pf : String → F × Option NumError)
    (output : List String → String × Option String) (hostName : String)
    (res : List (DiskStat F) × Option GoError)
    (hr : getDiskStatsForHostname pf output hostName = Except.ok res) :
    (∃ e, (output ["df", "-h", "/dev/" ++ hostName]).2 = some e ∧
      res = ([], some (GoError.exec e))) ∨
    ((output ["df", "-h", "/dev/" ++ hostName]).2 = none ∧
      statsLoop pf hostName (Split (output ["df", "-h", "/dev/" ++ hostName]).1 '\n') =
        Except.ok res) := by
  unfold getDiskStatsForHostname at hr
  rcases he : (output ["df", "-h", "/dev/" ++ hostName]).2 with _ | e
  · right
    simp only [he] at hr
    exact ⟨rfl, hr⟩
  · left
    simp only [he] at hr
    exact ⟨e, rfl, (Except.ok.inj hr).symm⟩

/-- Every record `getDiskStatsForHostname` returns is the record of a line of the output with
ten fields or more, for the host name it was called with. -/
theorem getDiskStatsForHostname_mem {F : Type} (pf : String → F × Option NumError)
    (output : List String → String × Option String) (hostName : String)
    (stats : List (DiskStat F)) (err : Option GoError) (d : DiskStat F)
    (hr : getDiskStatsForHostname pf output hostName = Except.ok (stats, err))
    (hd : d ∈ stats) :
    ∃ (line : String) (f0 f1 f2 f3 f4 f5 f6 f7 f8 f9 : String) (more : List String),
      line ∈ Split (output ["df", "-h", "/dev/" ++ hostName]).1 '\n' ∧
      Fields line = f0 :: f1 :: f2 :: f3 :: f4 :: f5 :: f6 :: f7 :: f8 :: f9 :: more ∧
      d = recordOf pf hostName f0 f1 f2 f8 f9 := by
  rcases getDiskStatsForHostname_inv pf output hostName _ hr with ⟨e, _, h2⟩ | ⟨_, h2⟩
  · have : stats = [] := (Prod.mk.inj h2).1
    rw [this] at hd
    simp at hd
  · rcases statsLoop_ok pf hostName _ _ h2 with ⟨h3, _⟩ | ⟨sk, line, rest, f0, f1, f2, f3, f4,
      f5, f6, f7, f8, f9, more, h3, _, h5, h6⟩
    · have : stats = [] := (Prod.mk.inj h3).1
      rw [this] at hd
      simp at hd
    · have hst : stats = [recordOf pf hostName f0 f1 f2 f8 f9] := (Prod.mk.inj h6).1
      rw [hst] at hd
      refine ⟨line, f0, f1, f2, f3, f4, f5, f6, f7, f8, f9, more, ?_, h5, ?_⟩
      · rw [h3]
        simp
      · simpa using hd

/-- The handler answers a request path that begins with `/` with 400 `Invalid hostname`:
the first piece of such a path is empty, and the host name is taken from the first piece or
left empty. -/
theorem getDiskStats_leading_slash {F : Type} (pf : String → F × Option NumError)
    (output : List String → String × Option String) (p : String) :
    getDiskStats pf output ("/" ++ p) =
      Except.ok (Response.httpError "Invalid hostname" 400) := by
  have hs : Split ("/" ++ p) '/' = "" :: Split p '/' := by
    have h := Split_append '/' "" p (by simp)
    have h1 : "" ++ String.mk ['/'] ++ p = "/" ++ p := by
      simp only [String.empty_append]
    rw [h1] at h
    exact h
  obtain ⟨q, qs, hq⟩ : ∃ q qs, Split p '/' = q :: qs := by
    rcases hsp : Split p '/' with _ | ⟨q, qs⟩
    · exact absurd hsp (splitLoop_ne_nil '/' p.data [])
    · exact ⟨q, qs, rfl⟩
  have hinv : isValidHostname "" = false := by decide
  unfold getDiskStats
  rw [hs, hq]
  by_cases hd : q = "diskstats"
  · simp [index, bind, Except.bind, hd, hinv]
  · simp [index, bind, Except.bind, hd, hinv]

/-- The first line with six fields or more, when it has ten or more, gives the one record. -/
theorem getDiskStatsForHostname_first {F : Type} (pf : String → F × Option NumError)
    (output : List String → String × Option String) (hostName text : String)
    (skipped : List String) (line : String) (rest : List String)
    (f0 f1 f2 f3 f4 f5 f6 f7 f8 f9 : String) (more : List String)
    (hcmd : output ["df", "-h", "/dev/" ++ hostName] = (text, none))
    (hlines : Split text '\n' = skipped ++ line :: rest)
    (hskip : ∀ l ∈ skipped, (Fields l).length < 6)
    (hf : Fields line = f0 :: f1 :: f2 :: f3 :: f4 :: f5 :: f6 :: f7 :: f8 :: f9 :: more) :
    getDiskStatsForHostname pf output hostName =
      Except.ok ([recordOf pf hostName f0 f1 f2 f8 f9], none) := by
  rw [getDiskStatsForHostname_ok pf output hostName text hcmd, hlines,
    statsLoop_skip pf hostName skipped _ hskip,
    statsLoop_ten pf hostName line rest f0 f1 f2 f3 f4 f5 f6 f7 f8 f9 more hf]

/-! ## The claims -/

/-- C1 (as stated, refuted): a header line that itself has six fields or more is the first
qualifying line, so the record is built from the header and not from the data line. Here the
header has ten fields, the data line is `ext4 1000000 45.0 a b c d e 100 50`, and the record
returned has type `Filesystem` and size 0 instead of type `ext4` and size 1000000. -/
theorem C1_counterexample :
    '\n' ∉ "Filesystem Type Size Used Avail Use% Mounted on Read Write".data ∧
    '\n' ∉ "ext4 1000000 45.0 a b c d e 100 50".data ∧
    Fields "ext4 1000000 45.0 a b c d e 100 50" =
      ["ext4", "1000000", "45.0", "a", "b", "c", "d", "e", "100", "50"] ∧
    getDiskStatsForHostname sampleParseFloat
        (commandPrinting ("Filesystem Type Size Used Avail Use% Mounted on Read Write" ++ "\n" ++
          "ext4 1000000 45.0 a b c d e 100 50")) "sda1" =
      Except.ok ([{ HostName := "sda1", Path := "/dev/sda1", Size := 0, Used := 0,
                    Type_ := "Filesystem", Read := 0, Write := 0 }], none) ∧
    getDiskStatsForHostname sampleParseFloat
        (commandPrinting ("Filesystem Type Size Used Avail Use% Mounted on Read Write" ++ "\n" ++
          "ext4 1000000 45.0 a b c d e 100 50")) "sda1" ≠
      Except.ok ([{ HostName := "sda1", Path := "/dev/sda1", Size := 1000000, Used := 45,
                    Type_ := "ext4", Read := 100, Write := 50 }], none) := by
  decide

/-- C1 (amended): for every command output made of a header line with fewer than 6 fields
followed by one data line with at least 10 fields (then nothing, or a line end and any further
text), and for every host name h, `getDiskStatsForHostname` succeeds with exactly one DiskStat
whose type is field 0 of the data line, whose size is what the integer parse returns for
field 1 (the value of field 1 when that is a decimal numeral within the signed 64-bit range),
whose used, read and write are what the float parse returns for fields 2, 8 and 9, whose
host_name is h and whose path is `/dev/` followed by h. -/
theorem C1_header_then_data_row {F : Type} (pf : String → F × Option NumError)
    (output : List String → String × Option String) (hostName header data trailer : String)
    (f0 f1 f2 f3 f4 f5 f6 f7 f8 f9 : String) (more : List String)
    (hcmd : output ["df", "-h", "/dev/" ++ hostName] =
      (header ++ "\n" ++ data ++ trailer, none))
    (hh : '\n' ∉ header.data) (hd : '\n' ∉ data.data)
    (ht : trailer = "" ∨ ∃ t : String, trailer = "\n" ++ t)
    (hshort : (Fields header).length < 6)
    (hf : Fields data = f0 :: f1 :: f2 :: f3 :: f4 :: f5 :: f6 :: f7 :: f8 :: f9 :: more) :
    getDiskStatsForHostname pf output hostName =
      Except.ok ([{ HostName := hostName, Path := "/dev/" ++ hostName, Size := (ParseInt f1).1,
                    Used := (pf f2).1, Type_ := f0, Read := (pf f8).1, Write := (pf f9).1 }],
                 none) ∧
    ∀ v : Int, numeralValue f1 = some v → -9223372036854775808 ≤ v →
      v < 9223372036854775808 → (ParseInt f1).1 = v := by
  constructor
  · rw [getDiskStatsForHostname_ok pf output hostName _ hcmd]
    have hlines : ∃ rest, Split (header ++ "\n" ++ data ++ trailer) '\n' =
        header :: data :: rest := by
      rcases ht with ht | ⟨t, ht⟩
      · subst ht
        refine ⟨[], ?_⟩
        have h1 : header ++ "\n" ++ data ++ "" = header ++ String.mk ['\n'] ++ data := by
          simp
        rw [h1, Split_append '\n' header data hh, Split_last '\n' data hd]
      · subst ht
        refine ⟨Split t '\n', ?_⟩
        have h1 : header ++ "\n" ++ data ++ ("\n" ++ t) =
            header ++ String.mk ['\n'] ++ (data ++ String.mk ['\n'] ++ t) := by
          simp only [String.append_assoc]
        rw [h1, Split_append '\n' header _ hh, Split_append '\n' data t hd]
    obtain ⟨rest, hrest⟩ := hlines
    rw [hrest, statsLoop_short pf hostName header _ hshort,
      statsLoop_ten pf hostName data rest f0 f1 f2 f3 f4 f5 f6 f7 f8 f9 more hf]
    rfl
  · intro v hv hlo hhi
    rw [ParseInt_numeral f1 v hv hlo hhi]

/-- C1 witness: a three-field header, the ten-field data line
`ext4 1000000 45.0 a b c d e 100 50`, a final line end and host name `sda1`. -/
theorem C1_header_then_data_row_witness :
    getDiskStatsForHostname sampleParseFloat
        (commandPrinting ("Filesystem Size Used" ++ "\n" ++
          "ext4 1000000 45.0 a b c d e 100 50" ++ "\n")) "sda1" =
      Except.ok ([{ HostName := "sda1", Path := "/dev/" ++ "sda1",
                    Size := (ParseInt "1000000").1, Used := (sampleParseFloat "45.0").1,
                    Type_ := "ext4", Read := (sampleParseFloat "100").1,
                    Write := (sampleParseFloat "50").1 }], none) ∧
    ∀ v : Int, numeralValue "1000000" = some v → -9223372036854775808 ≤ v →
      v < 9223372036854775808 → (ParseInt "1000000").1 = v :=
  C1_header_then_data_row sampleParseFloat
    (commandPrinting ("Filesystem Size Used" ++ "\n" ++
      "ext4 1000000 45.0 a b c d e 100 50" ++ "\n")) "sda1"
    "Filesystem Size Used" "ext4 1000000 45.0 a b c d e 100 50" "\n"
    "ext4" "1000000" "45.0" "a" "b" "c" "d" "e" "100" "50" []
    rfl (by decide) (by decide) (Or.inr ⟨"", rfl⟩) (by decide) (by decide)

/-- C2 (as stated, refuted): on the two lines of the example the header line has 8 fields, so
it is the first qualifying line, and reading its field 8 panics with
`index out of range [8] with length 8`; no record is returned. -/
theorem C2_counterexample :
    Fields "Filesystem 1K-blocks Used ... field7 field8 100 50" =
      ["Filesystem", "1K-blocks", "Used", "...", "field7", "field8", "100", "50"] ∧
    getDiskStatsForHostname sampleParseFloat
        (commandPrinting ("Filesystem 1K-blocks Used ... field7 field8 100 50" ++ "\n" ++
          "ext4 1000000 45.0 ... ... ... ... 100 50")) "sda1" =
      Except.error (RuntimeError.indexOutOfRange 8 8) := by
  decide

/-- C2 (amended): given the two-line command output
`Filesystem 1K-blocks Used ... field7` / `ext4 1000000 45.0 ... ... ... ... ... 100 50`
(a header of fewer than 6 fields, and a data line of 10 fields with 100 and 50 as fields 8
and 9) and host name `sda1`, `getDiskStatsForHostname` returns the single record with
host_name `sda1`, path `/dev/sda1`, type `ext4`, size 1000000, and used, read and write the
float parses of `45.0`, `100` and `50`. -/
theorem C2_example {F : Type} (pf : String → F × Option NumError) :
    getDiskStatsForHostname pf
        (commandPrinting ("Filesystem 1K-blocks Used ... field7" ++ "\n" ++
          "ext4 1000000 45.0 ... ... ... ... ... 100 50")) "sda1" =
      Except.ok ([{ HostName := "sda1", Path := "/dev/sda1", Size := 1000000,
                    Used := (pf "45.0").1, Type_ := "ext4", Read := (pf "100").1,
                    Write := (pf "50").1 }], none) := by
  rw [getDiskStatsForHostname_ok pf _ "sda1" _ rfl]
  have hs : Split ("Filesystem 1K-blocks Used ... field7" ++ "\n" ++
      "ext4 1000000 45.0 ... ... ... ... ... 100 50") '\n' =
      ["Filesystem 1K-blocks Used ... field7",
        "ext4 1000000 45.0 ... ... ... ... ... 100 50"] := by decide
  rw [hs, statsLoop_short pf "sda1" _ _ (by decide),
    statsLoop_ten pf "sda1" _ [] "ext4" "1000000" "45.0" "..." "..." "..." "..." "..." "100"
      "50" [] (by decide)]
  have hsize : (ParseInt "1000000").1 = 1000000 := by decide
  have hpath : "/dev/" ++ "sda1" = "/dev/sda1" := by decide
  simp only [recordOf, hsize, hpath]

/-- C3 (what the code does): when the first line with at least 6 fields has exactly 6, 7 or
8 fields, `getDiskStatsForHostname` returns nothing: it panics with
`index out of range [8]` on reading field 8 of that line. -/
theorem C3_missing_io_columns_panic {F : Type} (pf : String → F × Option NumError)
    (output : List String → String × Option String) (hostName text : String)
    (skipped : List String) (line : String) (rest : List String)
    (hcmd : output ["df", "-h", "/dev/" ++ hostName] = (text, none))
    (hlines : Split text '\n' = skipped ++ line :: rest)
    (hskip : ∀ l ∈ skipped, (Fields l).length < 6)
    (h6 : 6 ≤ (Fields line).length) (h8 : (Fields line).length ≤ 8) :
    getDiskStatsForHostname pf output hostName =
      Except.error (RuntimeError.indexOutOfRange 8 (Fields line).length) := by
  rw [getDiskStatsForHostname_ok pf output hostName text hcmd, hlines,
    statsLoop_skip pf hostName skipped _ hskip,
    statsLoop_panic pf hostName line rest h6 (by omega)]
  have h9 : (Fields line).length ≠ 9 := by omega
  rw [if_neg h9]

/-- C3 witness: a three-field header and the six-field data line
`ext4 1000000 45.0 a b c`. -/
theorem C3_missing_io_columns_panic_witness :
    getDiskStatsForHostname sampleParseFloat
        (commandPrinting "Filesystem Size Used\next4 1000000 45.0 a b c") "sda1" =
      Except.error (RuntimeError.indexOutOfRange 8
        (Fields "ext4 1000000 45.0 a b c").length) :=
  C3_missing_io_columns_panic sampleParseFloat
    (commandPrinting "Filesystem Size Used\next4 1000000 45.0 a b c") "sda1"
    "Filesystem Size Used\next4 1000000 45.0 a b c"
    ["Filesystem Size Used"] "ext4 1000000 45.0 a b c" []
    rfl (by decide) (by decide) (by decide) (by decide)

/-- C4: for every host name and every command output (the command having run successfully)
in which no line has at least 6 whitespace-delimited fields, the empty output included,
`getDiskStatsForHostname` returns no records and the error
`no disk statistics found for hostname <host name>`. -/
theorem C4_no_qualifying_line {F : Type} (pf : String → F × Option NumError)
    (output : List String → String × Option String) (hostName text : String)
    (hcmd : output ["df", "-h", "/dev/" ++ hostName] = (text, none))
    (hshort : ∀ line ∈ Split text '\n', (Fields line).length < 6) :
    getDiskStatsForHostname pf output hostName =
      Except.ok ([], some (GoError.errorf
        ("no disk statistics found for hostname " ++ hostName))) := by
  rw [getDiskStatsForHostname_ok pf output hostName text hcmd]
  have h := statsLoop_skip pf hostName (Split text '\n') [] hshort
  rw [List.append_nil] at h
  rw [h, statsLoop_nil]
  rfl

/-- C4 witness: an output that holds only a five-field header and a short line. -/
theorem C4_no_qualifying_line_witness :
    getDiskStatsForHostname sampleParseFloat
        (commandPrinting "Filesystem Size Used Avail Use%\nnone\n") "sda1" =
      Except.ok ([], some (GoError.errorf
        ("no disk statistics found for hostname " ++ "sda1"))) :=
  C4_no_qualifying_line sampleParseFloat
    (commandPrinting "Filesystem Size Used Avail Use%\nnone\n") "sda1"
    "Filesystem Size Used Avail Use%\nnone\n" rfl (by decide)

/-- C5: `isValidHostname` returns true for every non-empty string and false for the empty
string. -/
theorem C5_isValidHostname (hostname : String) :
    isValidHostname hostname = decide (hostname ≠ "") := by
  by_cases h : hostname = ""
  · subst h
    decide
  · have h1 : isValidHostname hostname = true := (isValidHostname_iff hostname).mpr h
    rw [h1]
    simp [h]

/-- C6 (what the code does): for every host name h, the handler `getDiskStats` applied to the
request path `/h/diskstats` answers 400 `Invalid hostname`: the pieces of the path are
`""`, h, `diskstats`, the piece compared with `diskstats` is h, and the host name is taken
from the empty first piece or left empty. -/
theorem C6_handler_rejects_hostname_path {F : Type} (pf : String → F × Option NumError)
    (output : List String → String × Option String) (h : String) :
    getDiskStats pf output ("/" ++ h ++ "/diskstats") =
      Except.ok (Response.httpError "Invalid hostname" 400) := by
  rw [String.append_assoc]
  exact getDiskStats_leading_slash pf output (h ++ "/diskstats")

/-- C7 (as stated, refuted): the size field `99999999999999999999x` is no number, yet the
integer parse leaves the unsigned 64-bit range at its twentieth digit, before it reads the
`x`, and reports a range error together with the largest `int64`: size is
9223372036854775807, not 0. -/
theorem C7_counterexample :
    numeralValue "99999999999999999999x" = none ∧
    Fields "ext4 99999999999999999999x 45.0 a b c d e 100 50" =
      ["ext4", "99999999999999999999x", "45.0", "a", "b", "c", "d", "e", "100", "50"] ∧
    getDiskStatsForHostname sampleParseFloat
        (commandPrinting "ext4 99999999999999999999x 45.0 a b c d e 100 50") "sda1" =
      Except.ok ([{ HostName := "sda1", Path := "/dev/sda1", Size := 9223372036854775807,
                    Used := 45, Type_ := "ext4", Read := 100, Write := 50 }], none) := by
  decide

/-- C7 (amended): for every first qualifying line with at least 10 fields whose size field
(field 1) is non-numeric text, the digits of which before its first non-digit character (its
sign apart) do not exceed the unsigned 64-bit range, `getDiskStatsForHostname` succeeds with
one DiskStat, its size is 0, and its type, used, read and write are the same as for any
output whose first qualifying line has the same fields but for field 1. -/
theorem C7_nonnumeric_size {F : Type} (pf : String → F × Option NumError)
    (output : List String → String × Option String) (hostName text : String)
    (skipped : List String) (line : String) (rest : List String)
    (f0 f1 f2 f3 f4 f5 f6 f7 f8 f9 : String) (more : List String)
    (hcmd : output ["df", "-h", "/dev/" ++ hostName] = (text, none))
    (hlines : Split text '\n' = skipped ++ line :: rest)
    (hskip : ∀ l ∈ skipped, (Fields l).length < 6)
    (hf : Fields line = f0 :: f1 :: f2 :: f3 :: f4 :: f5 :: f6 :: f7 :: f8 :: f9 :: more)
    (hnon : numeralValue f1 = none) (hfit : decVal (leadingDigits f1) 0 ≤ maxUint64) :
    getDiskStatsForHostname pf output hostName =
      Except.ok ([{ HostName := hostName, Path := "/dev/" ++ hostName, Size := 0,
                    Used := (pf f2).1, Type_ := f0, Read := (pf f8).1, Write := (pf f9).1 }],
                 none) ∧
    ∀ (output2 : List String → String × Option String) (text2 : String)
      (skipped2 : List String) (line2 : String) (rest2 : List String) (g1 : String)
      (more2 : List String),
      output2 ["df", "-h", "/dev/" ++ hostName] = (text2, none) →
      Split text2 '\n' = skipped2 ++ line2 :: rest2 →
      (∀ l ∈ skipped2, (Fields l).length < 6) →
      Fields line2 = f0 :: g1 :: f2 :: f3 :: f4 :: f5 :: f6 :: f7 :: f8 :: f9 :: more2 →
      getDiskStatsForHostname pf output2 hostName =
        Except.ok ([{ HostName := hostName, Path := "/dev/" ++ hostName,
                      Size := (ParseInt g1).1, Used := (pf f2).1, Type_ := f0,
                      Read := (pf f8).1, Write := (pf f9).1 }], none) := by
  constructor
  · rw [getDiskStatsForHostname_first pf output hostName text skipped line rest f0 f1 f2 f3 f4
      f5 f6 f7 f8 f9 more hcmd hlines hskip hf]
    simp only [recordOf, ParseInt_nonnumeral f1 hnon hfit]
  · intro output2 text2 skipped2 line2 rest2 g1 more2 hcmd2 hlines2 hskip2 hf2
    rw [getDiskStatsForHostname_first pf output2 hostName text2 skipped2 line2 rest2 f0 g1 f2
      f3 f4 f5 f6 f7 f8 f9 more2 hcmd2 hlines2 hskip2 hf2]
    rfl

/-- C7 witness: a short header, then the line `ext4 12GB 45.0 a b c d e 100 50`, whose size
field `12GB` is no number. -/
theorem C7_nonnumeric_size_witness :
    getDiskStatsForHostname sampleParseFloat
        (commandPrinting "Filesystem Size Used\next4 12GB 45.0 a b c d e 100 50") "sda1" =
      Except.ok ([{ HostName := "sda1", Path := "/dev/" ++ "sda1", Size := 0,
                    Used := (sampleParseFloat "45.0").1, Type_ := "ext4",
                    Read := (sampleParseFloat "100").1,
                    Write := (sampleParseFloat "50").1 }], none) :=
  (C7_nonnumeric_size sampleParseFloat
    (commandPrinting "Filesystem Size Used\next4 12GB 45.0 a b c d e 100 50") "sda1"
    "Filesystem Size Used\next4 12GB 45.0 a b c d e 100 50"
    ["Filesystem Size Used"] "ext4 12GB 45.0 a b c d e 100 50" []
    "ext4" "12GB" "45.0" "a" "b" "c" "d" "e" "100" "50" []
    rfl (by decide) (by decide) (by decide) (by decide) (by decide)).1

/-- C8 (as stated, refuted): on the size field `99999999999999999999` the integer parse
fails with a range error, and the size returned is 9223372036854775807, not 0. -/
theorem C8_counterexample :
    (ParseInt "99999999999999999999").2 = some NumError.ErrRange ∧
    getDiskStatsForHostname sampleParseFloat
        (commandPrinting "ext4 99999999999999999999 45.0 a b c d e 100 50") "sda1" =
      Except.ok ([{ HostName := "sda1", Path := "/dev/sda1", Size := 9223372036854775807,
                    Used := 45, Type_ := "ext4", Read := 100, Write := 50 }], none) := by
  decide

/-- C8 (amended): for every first qualifying line with at least 10 fields the call succeeds
with one DiskStat, whatever the parses report. When the integer parse of the size field fails
with a syntax error, size is exactly 0; when it fails with a range error, size is the bound
of the signed 64-bit range on the side of the sign, 9223372036854775807 or
-9223372036854775808. Used, read and write hold the value the float parse returns for fields
2, 8 and 9, with or without an error. -/
theorem C8_failed_parse_values {F : Type} (pf : String → F × Option NumError)
    (output : List String → String × Option String) (hostName text : String)
    (skipped : List String) (line : String) (rest : List String)
    (f0 f1 f2 f3 f4 f5 f6 f7 f8 f9 : String) (more : List String)
    (hcmd : output ["df", "-h", "/dev/" ++ hostName] = (text, none))
    (hlines : Split text '\n' = skipped ++ line :: rest)
    (hskip : ∀ l ∈ skipped, (Fields l).length < 6)
    (hf : Fields line = f0 :: f1 :: f2 :: f3 :: f4 :: f5 :: f6 :: f7 :: f8 :: f9 :: more) :
    ∃ d : DiskStat F,
      getDiskStatsForHostname pf output hostName = Except.ok ([d], none) ∧
      ((ParseInt f1).2 = some NumError.ErrSyntax → d.Size = 0) ∧
      ((ParseInt f1).2 = some NumError.ErrRange →
        (d.Size = 9223372036854775807 ∧ f1.data.head? ≠ some '-') ∨
        (d.Size = -9223372036854775808 ∧ f1.data.head? = some '-')) ∧
      d.Used = (pf f2).1 ∧ d.Read = (pf f8).1 ∧ d.Write = (pf f9).1 := by
  refine ⟨recordOf pf hostName f0 f1 f2 f8 f9, ?_, ?_, ?_, rfl, rfl, rfl⟩
  · exact getDiskStatsForHostname_first pf output hostName text skipped line rest f0 f1 f2 f3
      f4 f5 f6 f7 f8 f9 more hcmd hlines hskip hf
  · intro h
    exact ParseInt_syntax_zero f1 h
  · intro h
    exact ParseInt_range_bound f1 h

/-- C8 witness: the line `ext4 -99999999999999999999 oops a b c d e 100 50`, whose size is
below the signed 64-bit range and whose used field is no number. -/
theorem C8_failed_parse_values_witness :
    ∃ d : DiskStat Int,
      getDiskStatsForHostname sampleParseFloat
        (commandPrinting "ext4 -99999999999999999999 oops a b c d e 100 50") "sda1" =
        Except.ok ([d], none) ∧
      ((ParseInt "-99999999999999999999").2 = some NumError.ErrSyntax → d.Size = 0) ∧
      ((ParseInt "-99999999999999999999").2 = some NumError.ErrRange →
        (d.Size = 9223372036854775807 ∧ "-99999999999999999999".data.head? ≠ some '-') ∨
        (d.Size = -9223372036854775808 ∧ "-99999999999999999999".data.head? = some '-')) ∧
      d.Used = (sampleParseFloat "oops").1 ∧ d.Read = (sampleParseFloat "100").1 ∧
      d.Write = (sampleParseFloat "50").1 :=
  C8_failed_parse_values sampleParseFloat
    (commandPrinting "ext4 -99999999999999999999 oops a b c d e 100 50") "sda1"
    "ext4 -99999999999999999999 oops a b c d e 100 50"
    [] "ext4 -99999999999999999999 oops a b c d e 100 50" []
    "ext4" "-99999999999999999999" "oops" "a" "b" "c" "d" "e" "100" "50" []
    rfl (by decide) (by decide) (by decide)

/-- C9 (as stated, refuted): the size field `-5` is parsed as the integer -5, so the record
returned has a negative size. -/
theorem C9_counterexample :
    getDiskStatsForHostname sampleParseFloat
        (commandPrinting "ext4 -5 45.0 a b c d e 100 50") "sda1" =
      Except.ok ([{ HostName := "sda1", Path := "/dev/sda1", Size := -5, Used := 45,
                    Type_ := "ext4", Read := 100, Write := 50 }], none) ∧
    ¬ ((0 : Int) ≤ -5) := by
  decide

/-- C9 (amended): every DiskStat that `getDiskStatsForHostname` returns, for every host name
and every command output, has a size within the signed 64-bit range, and its size is ≥ 0
unless the size field (field 1) of the line it was built from begins with `-`. -/
theorem C9_size_range {F : Type} (pf : String → F × Option NumError)
    (output : List String → String × Option String) (hostName : String)
    (stats : List (DiskStat F)) (err : Option GoError) (d : DiskStat F)
    (hr : getDiskStatsForHostname pf output hostName = Except.ok (stats, err))
    (hd : d ∈ stats) :
    (-9223372036854775808 ≤ d.Size ∧ d.Size ≤ 9223372036854775807) ∧
    (d.Size < 0 →
      ∃ line ∈ Split (output ["df", "-h", "/dev/" ++ hostName]).1 '\n', ∃ f1 : String,
        (Fields line).get? 1 = some f1 ∧ f1.data.head? = some '-' ∧
        d.Size = (ParseInt f1).1) := by
  obtain ⟨line, f0, f1, f2, f3, f4, f5, f6, f7, f8, f9, more, hmem, hf, hrec⟩ :=
    getDiskStatsForHostname_mem pf output hostName stats err d hr hd
  have hsize : d.Size = (ParseInt f1).1 := by rw [hrec]; rfl
  have hb := ParseInt_bounds f1
  refine ⟨⟨by rw [hsize]; exact hb.1, by rw [hsize]; omega⟩, ?_⟩
  intro hneg
  refine ⟨line, hmem, f1, ?_, ?_, hsize⟩
  · rw [hf]
    rfl
  · exact ParseInt_neg f1 (by rw [← hsize]; exact hneg)

/-- C9 witness: the record returned for the line `ext4 -5 45.0 a b c d e 100 50`. -/
theorem C9_size_range_witness :
    getDiskStatsForHostname sampleParseFloat
        (commandPrinting "ext4 -5 45.0 a b c d e 100 50") "sda1" =
      Except.ok ([{ sampleRecord with Size := -5 }], none) ∧
    (-9223372036854775808 ≤ ({ sampleRecord with Size := -5 } : DiskStat Int).Size ∧
      ({ sampleRecord with Size := -5 } : DiskStat Int).Size ≤ 9223372036854775807) ∧
    (({ sampleRecord with Size := -5 } : DiskStat Int).Size < 0 →
      ∃ line ∈ Split (commandPrinting "ext4 -5 45.0 a b c d e 100 50"
          ["df", "-h", "/dev/" ++ "sda1"]).1 '\n', ∃ f1 : String,
        (Fields line).get? 1 = some f1 ∧ f1.data.head? = some '-' ∧
        ({ sampleRecord with Size := -5 } : DiskStat Int).Size = (ParseInt f1).1) :=
  ⟨by decide,
    C9_size_range sampleParseFloat (commandPrinting "ext4 -5 45.0 a b c d e 100 50") "sda1"
      [{ sampleRecord with Size := -5 }] none { sampleRecord with Size := -5 }
      (by decide) (List.mem_singleton.mpr rfl)⟩

/-- C10 (as stated, refuted): `getDiskStatsForHostname` does not look at its host name; called
with the empty host name on an output with a ten-field line it returns a record whose
host_name is empty (and whose path is `/dev/`). -/
theorem C10_counterexample :
    getDiskStatsForHostname sampleParseFloat
        (commandPrinting "ext4 1000000 45.0 a b c d e 100 50") "" =
      Except.ok ([{ HostName := "", Path := "/dev/", Size := 1000000, Used := 45,
                    Type_ := "ext4", Read := 100, Write := 50 }], none) := by
  decide

/-- C10 (amended): every DiskStat that `getDiskStatsForHostname` returns, for every host name
argument and every command output, has the argument as its host_name, a non-empty path, and
its path equals `/dev/` followed by its host_name; its host_name is non-empty whenever the
argument is one that `isValidHostname` accepts, as the handler checks before the call. -/
theorem C10_host_name_and_path {F : Type} (pf : String → F × Option NumError)
    (output : List String → String × Option String) (hostName : String)
    (stats : List (DiskStat F)) (err : Option GoError) (d : DiskStat F)
    (hr : getDiskStatsForHostname pf output hostName = Except.ok (stats, err))
    (hd : d ∈ stats) :
    d.HostName = hostName ∧ d.Path = "/dev/" ++ d.HostName ∧ d.Path ≠ "" ∧
    (isValidHostname hostName = true → d.HostName ≠ "") := by
  obtain ⟨line, f0, f1, f2, f3, f4, f5, f6, f7, f8, f9, more, _, _, hrec⟩ :=
    getDiskStatsForHostname_mem pf output hostName stats err d hr hd
  have h1 : d.HostName = hostName := by rw [hrec]; rfl
  have h2 : d.Path = "/dev/" ++ hostName := by rw [hrec]; rfl
  refine ⟨h1, by rw [h2, h1], ?_, ?_⟩
  · rw [h2]
    intro h
    have := congrArg String.data h
    simp at this
  · intro hv
    rw [h1]
    exact (isValidHostname_iff hostName).mp hv

/-- C10 witness: the record returned for host name `sda1`. -/
theorem C10_host_name_and_path_witness :
    getDiskStatsForHostname sampleParseFloat
        (commandPrinting "ext4 1000000 45.0 a b c d e 100 50") "sda1" =
      Except.ok ([sampleRecord], none) ∧
    sampleRecord.HostName = "sda1" ∧ sampleRecord.Path = "/dev/" ++ sampleRecord.HostName ∧
    sampleRecord.Path ≠ "" ∧ (isValidHostname "sda1" = true → sampleRecord.HostName ≠ "") :=
  ⟨by decide,
    C10_host_name_and_path sampleParseFloat
      (commandPrinting "ext4 1000000 45.0 a b c d e 100 50") "sda1"
      [sampleRecord] none sampleRecord (by decide) (List.mem_singleton.mpr rfl)⟩

/-! ## Facts for the claims on lines and white space -/

/-- A piece returned by `strings.Split` holds no separator. -/
theorem splitLoop_piece (sep : Char) (cs cur : List Char) (hcur : sep ∉ cur) :
    ∀ p ∈ splitLoop sep cs cur, sep ∉ p.data := by
  induction cs generalizing cur with
  | nil =>
    intro p hp
    simp only [splitLoop, List.mem_singleton] at hp
    rw [hp]
    exact hcur
  | cons c cs ih =>
    intro p hp
    simp only [splitLoop] at hp
    split_ifs at hp with hc
    · rcases List.mem_cons.mp hp with h | h
      · rw [h]
        exact hcur
      · exact ih [] (by simp) p h
    · refine ih (cur ++ [c]) ?_ p hp
      intro hmem
      rcases List.mem_append.mp hmem with h | h
      · exact hcur h
      · exact hc (List.mem_singleton.mp h).symm

/-- The loop stops at a qualifying line: the lines after it are not read. -/
theorem statsLoop_qualifying {F : Type} (pf : String → F × Option NumError) (h line : String)
    (rest rest2 : List String) (h6 : 6 ≤ (Fields line).length) :
    statsLoop pf h (line :: rest) = statsLoop pf h (line :: rest2) := by
  have hn : ¬ (Fields line).length < 6 := by omega
  simp only [statsLoop, hn, if_false]

/-- When `getDiskStatsForHostname` returns, it returns in one of two ways: an error and no
record, or no error and the one record of the first qualifying line. -/
theorem getDiskStatsForHostname_returns {F : Type} (pf : String → F × Option NumError)
    (output : List String → String × Option String) (hostName : String)
    (stats : List (DiskStat F)) (err : Option GoError)
    (hr : getDiskStatsForHostname pf output hostName = Except.ok (stats, err)) :
    (stats = [] ∧ err ≠ none) ∨
    (err = none ∧ ∃ f0 f1 f2 f8 f9 : String, stats = [recordOf pf hostName f0 f1 f2 f8 f9]) := by
  rcases getDiskStatsForHostname_inv pf output hostName _ hr with ⟨e, _, h2⟩ | ⟨_, h2⟩
  · left
    have h3 := Prod.mk.inj h2
    exact ⟨h3.1, by rw [h3.2]; simp⟩
  · rcases statsLoop_ok pf hostName _ _ h2 with ⟨h3, _⟩ | ⟨sk, line, rest, f0, f1, f2, f3, f4,
      f5, f6, f7, f8, f9, more, _, _, _, h6⟩
    · left
      have h4 := Prod.mk.inj h3
      exact ⟨h4.1, by rw [h4.2]; simp⟩
    · right
      have h4 := Prod.mk.inj h6
      exact ⟨h4.2, f0, f1, f2, f8, f9, h4.1⟩

/-- C11: `getDiskStatsForHostname` uses only the first line that has at least 6 fields: for
every output, its result equals its result on the output reduced to that first qualifying
line alone, so the lines with fewer than 6 fields before it and all the lines after it have no
effect on what is returned. -/
theorem C11_first_qualifying_line_only {F : Type} (pf : String → F × Option NumError)
    (output output2 : List String → String × Option String) (hostName text : String)
    (skipped : List String) (line : String) (rest : List String)
    (hcmd : output ["df", "-h", "/dev/" ++ hostName] = (text, none))
    (hcmd2 : output2 ["df", "-h", "/dev/" ++ hostName] = (line, none))
    (hlines : Split text '\n' = skipped ++ line :: rest)
    (hskip : ∀ l ∈ skipped, (Fields l).length < 6)
    (h6 : 6 ≤ (Fields line).length) :
    getDiskStatsForHostname pf output hostName =
      getDiskStatsForHostname pf output2 hostName := by
  have hmem : line ∈ Split text '\n' := by
    rw [hlines]
    simp
  have hnl : '\n' ∉ line.data := splitLoop_piece '\n' text.data [] (by simp) line hmem
  rw [getDiskStatsForHostname_ok pf output hostName text hcmd,
    getDiskStatsForHostname_ok pf output2 hostName line hcmd2, hlines,
    Split_last '\n' line hnl, statsLoop_skip pf hostName skipped _ hskip]
  exact statsLoop_qualifying pf hostName line rest [] h6

/-- C11 witness: a short header, the first qualifying line
`ext4 1000000 45.0 a b c d e 100 50`, and a second qualifying line after it. -/
theorem C11_first_qualifying_line_only_witness :
    getDiskStatsForHostname sampleParseFloat
        (commandPrinting
          "Filesystem Size Used\next4 1000000 45.0 a b c d e 100 50\nxfs 5 1.0 a b c d e 7 8")
        "sda1" =
      getDiskStatsForHostname sampleParseFloat
        (commandPrinting "ext4 1000000 45.0 a b c d e 100 50") "sda1" :=
  C11_first_qualifying_line_only sampleParseFloat
    (commandPrinting
      "Filesystem Size Used\next4 1000000 45.0 a b c d e 100 50\nxfs 5 1.0 a b c d e 7 8")
    (commandPrinting "ext4 1000000 45.0 a b c d e 100 50") "sda1"
    "Filesystem Size Used\next4 1000000 45.0 a b c d e 100 50\nxfs 5 1.0 a b c d e 7 8"
    ["Filesystem Size Used"] "ext4 1000000 45.0 a b c d e 100 50" ["xfs 5 1.0 a b c d e 7 8"]
    rfl rfl (by decide) (by decide) (by decide)

/-- C12: whenever the external command fails, `getDiskStatsForHostname` returns no records
and the command's own error, for every host name and whatever text the command printed; it
does not return the `no disk statistics found` error in that case. -/
theorem C12_command_failure {F : Type} (pf : String → F × Option NumError)
    (output : List String → String × Option String) (hostName e : String)
    (hfail : (output ["df", "-h", "/dev/" ++ hostName]).2 = some e) :
    getDiskStatsForHostname pf output hostName = Except.ok ([], some (GoError.exec e)) ∧
    ∀ (stats : List (DiskStat F)) (msg : String),
      getDiskStatsForHostname pf output hostName ≠
        Except.ok (stats, some (GoError.errorf msg)) := by
  have hres : getDiskStatsForHostname pf output hostName =
      Except.ok ([], some (GoError.exec e)) := by
    simp [getDiskStatsForHostname, hfail]
  refine ⟨hres, ?_⟩
  intro stats msg hcon
  rw [hres] at hcon
  have h1 := (Prod.mk.inj (Except.ok.inj hcon)).2
  simp at h1

/-- C12 witness: a command that exits with `exit status 1` after printing a qualifying
line. -/
theorem C12_command_failure_witness :
    getDiskStatsForHostname sampleParseFloat
        (commandFailing "ext4 1000000 45.0 a b c d e 100 50" "exit status 1") "sda1" =
      Except.ok ([], some (GoError.exec "exit status 1")) ∧
    ∀ (stats : List (DiskStat Int)) (msg : String),
      getDiskStatsForHostname sampleParseFloat
        (commandFailing "ext4 1000000 45.0 a b c d e 100 50" "exit status 1") "sda1" ≠
        Except.ok (stats, some (GoError.errorf msg)) :=
  C12_command_failure sampleParseFloat
    (commandFailing "ext4 1000000 45.0 a b c d e 100 50" "exit status 1") "sda1"
    "exit status 1" rfl

/-- C13 (what the code does): on the output that `df -h` prints, a 7-field header line and
a 6-field data line, `getDiskStatsForHostname` ends in neither of the two ways: it panics
with `index out of range [8] with length 7` on the header line, returning no error and no
record. -/
theorem C13_third_way_panic :
    Fields "Filesystem      Size  Used Avail Use% Mounted on" =
      ["Filesystem", "Size", "Used", "Avail", "Use%", "Mounted", "on"] ∧
    getDiskStatsForHostname sampleParseFloat
        (commandPrinting ("Filesystem      Size  Used Avail Use% Mounted on\n" ++
          "/dev/sda1        50G   20G   28G  42% /\n")) "sda1" =
      Except.error (RuntimeError.indexOutOfRange 8 7) := by
  decide

/-- Every field returned by `strings.Fields` is non-empty and holds no white space. -/
theorem fieldsLoop_field (cs cur : List Char) (hcur : ∀ c ∈ cur, IsSpace c = false) :
    ∀ f ∈ fieldsLoop cs cur, f.data ≠ [] ∧ ∀ c ∈ f.data, IsSpace c = false := by
  induction cs generalizing cur with
  | nil =>
    intro f hf
    simp only [fieldsLoop] at hf
    split_ifs at hf with h0
    · simp at hf
    · rw [List.mem_singleton.mp hf]
      exact ⟨h0, hcur⟩
  | cons c cs ih =>
    intro f hf
    simp only [fieldsLoop] at hf
    split_ifs at hf with hsp h0
    · exact ih [] (by simp) f hf
    · rcases List.mem_cons.mp hf with h | h
      · rw [h]
        exact ⟨h0, hcur⟩
      · exact ih [] (by simp) f h
    · refine ih (cur ++ [c]) ?_ f hf
      intro x hx
      rcases List.mem_append.mp hx with h | h
      · exact hcur x h
      · rw [List.mem_singleton.mp h]
        simpa using hsp

/-- `getDiskStatsForHostname` asks the command only for the arguments `df -h /dev/<host>`:
two commands that answer alike there give the same result. -/
theorem getDiskStatsForHostname_argv {F : Type} (pf : String → F × Option NumError)
    (output output2 : List String → String × Option String) (hostName : String)
    (h : output ["df", "-h", "/dev/" ++ hostName] = output2 ["df", "-h", "/dev/" ++ hostName]) :
    getDiskStatsForHostname pf output hostName =
      getDiskStatsForHostname pf output2 hostName := by
  simp only [getDiskStatsForHostname, h]

/-- C14 (as stated, refuted): `isValidHostname` accepts the candidate `../mnt/my disk`, which
holds `/`, a space and a `..` segment, and the command is then run on the path
`/dev/../mnt/my disk`. -/
theorem C14_counterexample :
    isValidHostname "../mnt/my disk" = true ∧
    '/' ∈ "../mnt/my disk".data ∧ ' ' ∈ "../mnt/my disk".data ∧
    Split "../mnt/my disk" '/' = ["..", "mnt", "my disk"] ∧
    getDiskStatsForHostname sampleParseFloat
        (commandExpecting ["df", "-h", "/dev/../mnt/my disk"]
          "ext4 1000000 45.0 a b c d e 100 50") "../mnt/my disk" =
      Except.ok ([{ sampleRecord with HostName := "../mnt/my disk",
                                      Path := "/dev/../mnt/my disk" }], none) := by
  decide

/-- C14 (amended): every candidate that `isValidHostname` accepts is non-empty, and no more
is checked: there is no allow-list of characters and no bound on the length, and the path
passed to the command is `/dev/` followed by the candidate as it is. -/
theorem C14_validator_accepts_nonempty (candidate : String)
    (hacc : isValidHostname candidate = true) :
    candidate ≠ "" ∧
    (∀ extra : String, isValidHostname (candidate ++ extra) = true) ∧
    ∀ (F : Type) (pf : String → F × Option NumError)
      (output output2 : List String → String × Option String),
      output ["df", "-h", "/dev/" ++ candidate] = output2 ["df", "-h", "/dev/" ++ candidate] →
      getDiskStatsForHostname pf output candidate =
        getDiskStatsForHostname pf output2 candidate := by
  have hne : candidate ≠ "" := (isValidHostname_iff candidate).mp hacc
  refine ⟨hne, ?_, ?_⟩
  · intro extra
    apply (isValidHostname_iff (candidate ++ extra)).mpr
    intro h
    apply hne
    have h1 := congrArg String.data h
    simp only [String.data_append] at h1
    have h2 : candidate.data = [] := (List.append_eq_nil.mp h1).1
    exact String.ext h2
  · intro F pf output output2 h
    exact getDiskStatsForHostname_argv pf output output2 candidate h

/-- C14 witness: the accepted candidate `../mnt/my disk`. -/
theorem C14_validator_accepts_nonempty_witness :
    isValidHostname "../mnt/my disk" = true ∧ "../mnt/my disk" ≠ "" ∧
    (∀ extra : String, isValidHostname ("../mnt/my disk" ++ extra) = true) ∧
    ∀ (F : Type) (pf : String → F × Option NumError)
      (output output2 : List String → String × Option String),
      output ["df", "-h", "/dev/" ++ "../mnt/my disk"] =
        output2 ["df", "-h", "/dev/" ++ "../mnt/my disk"] →
      getDiskStatsForHostname pf output "../mnt/my disk" =
        getDiskStatsForHostname pf output2 "../mnt/my disk" :=
  ⟨by decide, C14_validator_accepts_nonempty "../mnt/my disk" (by decide)⟩

/-- C15: whenever `getDiskStatsForHostname` returns a record, the command output contains a
line with at least 6 whitespace-delimited fields, and the type of the record is the first
field of the first such line; hence the type is non-empty and contains no white-space
character. -/
theorem C15_type_is_first_field {F : Type} (pf : String → F × Option NumError)
    (output : List String → String × Option String) (hostName : String)
    (stats : List (DiskStat F)) (err : Option GoError) (d : DiskStat F)
    (hr : getDiskStatsForHostname pf output hostName = Except.ok (stats, err))
    (hd : d ∈ stats) :
    (∃ (skipped : List String) (line : String) (rest : List String),
      Split (output ["df", "-h", "/dev/" ++ hostName]).1 '\n' = skipped ++ line :: rest ∧
      (∀ l ∈ skipped, (Fields l).length < 6) ∧ 6 ≤ (Fields line).length ∧
      (Fields line).head? = some d.Type_) ∧
    d.Type_ ≠ "" ∧ ∀ c ∈ d.Type_.data, IsSpace c = false := by
  rcases getDiskStatsForHostname_inv pf output hostName _ hr with ⟨e, _, h2⟩ | ⟨_, h2⟩
  · have : stats = [] := (Prod.mk.inj h2).1
    rw [this] at hd
    simp at hd
  · rcases statsLoop_ok pf hostName _ _ h2 with ⟨h3, _⟩ | ⟨sk, line, rest, f0, f1, f2, f3, f4,
      f5, f6, f7, f8, f9, more, h3, h4, h5, h6⟩
    · have : stats = [] := (Prod.mk.inj h3).1
      rw [this] at hd
      simp at hd
    · have hst : stats = [recordOf pf hostName f0 f1 f2 f8 f9] := (Prod.mk.inj h6).1
      rw [hst] at hd
      have hrec : d = recordOf pf hostName f0 f1 f2 f8 f9 := by simpa using hd
      have htype : d.Type_ = f0 := by rw [hrec]; rfl
      have hfield := fieldsLoop_field line.data [] (by simp) f0 (by
        show f0 ∈ Fields line
        rw [h5]
        simp)
      refine ⟨⟨sk, line, rest, h3, h4, ?_, ?_⟩, ?_, ?_⟩
      · rw [h5]
        simp
      · rw [h5, htype]
        rfl
      · rw [htype]
        intro h0
        apply hfield.1
        rw [h0]
      · rw [htype]
        exact hfield.2

/-- C15 witness: the record returned for a short header followed by the line
`ext4 1000000 45.0 a b c d e 100 50`. -/
theorem C15_type_is_first_field_witness :
    getDiskStatsForHostname sampleParseFloat
        (commandPrinting "Filesystem Size Used\next4 1000000 45.0 a b c d e 100 50") "sda1" =
      Except.ok ([sampleRecord], none) ∧
    (∃ (skipped : List String) (line : String) (rest : List String),
      Split (commandPrinting "Filesystem Size Used\next4 1000000 45.0 a b c d e 100 50"
        ["df", "-h", "/dev/" ++ "sda1"]).1 '\n' = skipped ++ line :: rest ∧
      (∀ l ∈ skipped, (Fields l).length < 6) ∧ 6 ≤ (Fields line).length ∧
      (Fields line).head? = some sampleRecord.Type_) ∧
    sampleRecord.Type_ ≠ "" ∧ ∀ c ∈ sampleRecord.Type_.data, IsSpace c = false :=
  ⟨by decide,
    C15_type_is_first_field sampleParseFloat
      (commandPrinting "Filesystem Size Used\next4 1000000 45.0 a b c d e 100 50") "sda1"
      [sampleRecord] none sampleRecord (by decide) (List.mem_singleton.mpr rfl)⟩

/-- White space at the start of the text, between fields, is skipped by `strings.Fields`. -/
theorem fieldsLoop_skip_space (run y : List Char) (hrun : ∀ c ∈ run, IsSpace c = true) :
    fieldsLoop (run ++ y) [] = fieldsLoop y [] := by
  induction run with
  | nil => rfl
  | cons c run ih =>
    have hc : IsSpace c = true := hrun c (by simp)
    rw [List.cons_append, fieldsLoop, if_pos hc, if_pos rfl]
    exact ih (fun x hx => hrun x (by simp [hx]))

/-- A non-empty run of white space closes the field being read, whatever its length. -/
theorem fieldsLoop_run (run y cur : List Char) (hne : run ≠ [])
    (hrun : ∀ c ∈ run, IsSpace c = true) :
    fieldsLoop (run ++ y) cur =
      (if cur = [] then [] else [String.mk cur]) ++ fieldsLoop y [] := by
  cases run with
  | nil => exact absurd rfl hne
  | cons c run =>
    have hc : IsSpace c = true := hrun c (by simp)
    have hrest := fieldsLoop_skip_space run y (fun x hx => hrun x (by simp [hx]))
    rw [List.cons_append, fieldsLoop, if_pos hc, hrest]
    split_ifs <;> simp

/-- One non-empty run of white space may stand for another: the fields are the same. -/
theorem fieldsLoop_replace_run (x run run2 y cur : List Char) (hne : run ≠ [])
    (hrun : ∀ c ∈ run, IsSpace c = true) (hne2 : run2 ≠ [])
    (hrun2 : ∀ c ∈ run2, IsSpace c = true) :
    fieldsLoop (x ++ (run ++ y)) cur = fieldsLoop (x ++ (run2 ++ y)) cur := by
  induction x generalizing cur with
  | nil =>
    rw [List.nil_append, List.nil_append, fieldsLoop_run run y cur hne hrun,
      fieldsLoop_run run2 y cur hne2 hrun2]
  | cons c x ih =>
    simp only [List.cons_append, fieldsLoop]
    split_ifs
    · exact ih []
    · exact congrArg (List.cons (String.mk cur)) (ih [])
    · exact ih (cur ++ [c])

/-- A carriage return at the end of a line changes no field. -/
theorem fieldsLoop_trailing_cr (x cur : List Char) :
    fieldsLoop (x ++ ['\r']) cur = fieldsLoop x cur := by
  induction x generalizing cur with
  | nil =>
    have hcr : IsSpace '\r' = true := by decide
    simp only [List.nil_append, fieldsLoop, hcr, if_true]
  | cons c x ih =>
    simp only [List.cons_append, fieldsLoop]
    split_ifs
    · exact ih []
    · exact congrArg (List.cons (String.mk cur)) (ih [])
    · exact ih (cur ++ [c])

theorem blankRun_spaces (run : List Char) (h : isBlankRun run = true) :
    run ≠ [] ∧ ∀ c ∈ run, IsSpace c = true := by
  simp only [isBlankRun, Bool.and_eq_true, Bool.not_eq_true', List.isEmpty_eq_false,
    List.all_eq_true, Bool.or_eq_true, decide_eq_true_eq] at h
  refine ⟨?_, ?_⟩
  · intro h0
    simp [h0] at h
  · intro c hc
    rcases h.2 c hc with h1 | h1
    · rw [h1]
      decide
    · rw [h1]
      decide

theorem blankRun_no_newline (run : List Char) (h : isBlankRun run = true) :
    '\n' ∉ run := by
  simp only [isBlankRun, Bool.and_eq_true, List.all_eq_true, Bool.or_eq_true,
    decide_eq_true_eq] at h
  intro hmem
  rcases h.2 _ hmem with h1 | h1
  · exact absurd h1 (by decide)
  · exact absurd h1 (by decide)

/-- Characters other than the separator only lengthen the piece being read. -/
theorem splitLoop_nosep_prefix (sep : Char) (run b cur : List Char) (hrun : sep ∉ run) :
    splitLoop sep (run ++ b) cur = splitLoop sep b (cur ++ run) := by
  induction run generalizing cur with
  | nil => simp
  | cons c run ih =>
    have hc : c ≠ sep := fun h => hrun (by simp [h])
    have hr : sep ∉ run := fun h => hrun (by simp [h])
    rw [List.cons_append, splitLoop, if_neg hc, ih (cur ++ [c]) hr]
    simp

/-- The characters already read go to the front of the first piece and nowhere else. -/
theorem splitLoop_acc (sep : Char) (b : List Char) :
    ∃ (p : List Char) (ps : List String),
      ∀ acc : List Char, splitLoop sep b acc = String.mk (acc ++ p) :: ps := by
  induction b with
  | nil => exact ⟨[], [], fun acc => by simp [splitLoop]⟩
  | cons c b ih =>
    obtain ⟨p, ps, hp⟩ := ih
    by_cases hc : c = sep
    · exact ⟨[], splitLoop sep b [], fun acc => by simp [splitLoop, hc]⟩
    · refine ⟨c :: p, ps, fun acc => ?_⟩
      rw [splitLoop, if_neg hc, hp (acc ++ [c])]
      simp

/-- Replacing a run of spaces and tabs by another leaves the fields of every line as they
are. -/
theorem splitLoop_replace_run (a run run2 b cur : List Char) (h1 : isBlankRun run = true)
    (h2 : isBlankRun run2 = true) :
    (splitLoop '\n' (a ++ (run ++ b)) cur).map Fields =
      (splitLoop '\n' (a ++ (run2 ++ b)) cur).map Fields := by
  induction a generalizing cur with
  | nil =>
    obtain ⟨p, ps, hp⟩ := splitLoop_acc '\n' b
    rw [List.nil_append, List.nil_append,
      splitLoop_nosep_prefix '\n' run b cur (blankRun_no_newline run h1),
      splitLoop_nosep_prefix '\n' run2 b cur (blankRun_no_newline run2 h2),
      hp (cur ++ run), hp (cur ++ run2)]
    simp only [List.map_cons, Fields, List.append_assoc]
    rw [fieldsLoop_replace_run cur run run2 p [] (blankRun_spaces run h1).1
      (blankRun_spaces run h1).2 (blankRun_spaces run2 h2).1 (blankRun_spaces run2 h2).2]
  | cons c a ih =>
    simp only [List.cons_append, splitLoop]
    split_ifs
    · exact congrArg (List.cons (Fields (String.mk cur))) (ih [])
    · exact ih (cur ++ [c])

/-- Replacing every `\n` by `\r\n` leaves the fields of every line as they are. -/
theorem splitLoop_crlf (cs cur : List Char) :
    (splitLoop '\n' (crlf cs) cur).map Fields = (splitLoop '\n' cs cur).map Fields := by
  induction cs generalizing cur with
  | nil => rfl
  | cons c cs ih =>
    by_cases hc : c = '\n'
    · have hcr : ¬ ('\r' = '\n') := by decide
      simp only [crlf, hc, if_true, splitLoop, if_neg hcr, List.map_cons, ih []]
      simp only [Fields, fieldsLoop_trailing_cr]
    · simp only [crlf, if_neg hc, splitLoop]
      exact ih (cur ++ [c])

/-- The loop reads the lines through their fields only. -/
theorem statsLoop_congr {F : Type} (pf : String → F × Option NumError) (h : String)
    (lines lines2 : List String) (hf : lines.map Fields = lines2.map Fields) :
    statsLoop pf h lines = statsLoop pf h lines2 := by
  induction lines generalizing lines2 with
  | nil =>
    cases lines2 with
    | nil => rfl
    | cons l ls => simp at hf
  | cons l ls ih =>
    cases lines2 with
    | nil => simp at hf
    | cons l2 ls2 =>
      simp only [List.map_cons, List.cons.injEq] at hf
      simp only [statsLoop, hf.1, ih ls2 hf.2]

/-- C16: the result of `getDiskStatsForHostname` depends only on the sequence of fields of
each line, not on the white space used: two outputs whose lines have the same fields give the
same result, and so do an output and the output with each `\n` replaced by `\r\n`, or with a
run of spaces and tabs (between, before or after fields) replaced by another non-empty run of
spaces and tabs. The command error, if any, is the same on both sides. -/
theorem C16_whitespace_insensitive {F : Type} (pf : String → F × Option NumError)
    (output output2 : List String → String × Option String) (hostName text text2 : String)
    (err : Option String)
    (hcmd : output ["df", "-h", "/dev/" ++ hostName] = (text, err))
    (hcmd2 : output2 ["df", "-h", "/dev/" ++ hostName] = (text2, err))
    (hws : (Split text '\n').map Fields = (Split text2 '\n').map Fields ∨
      text2.data = crlf text.data ∨
      ∃ a run run2 b : List Char, isBlankRun run = true ∧ isBlankRun run2 = true ∧
        text.data = a ++ (run ++ b) ∧ text2.data = a ++ (run2 ++ b)) :
    getDiskStatsForHostname pf output hostName =
      getDiskStatsForHostname pf output2 hostName := by
  have hfields : (Split text '\n').map Fields = (Split text2 '\n').map Fields := by
    rcases hws with h | h | ⟨a, run, run2, b, h1, h2, h3, h4⟩
    · exact h
    · simp only [Split, h]
      exact (splitLoop_crlf text.data []).symm
    · simp only [Split, h3, h4]
      exact splitLoop_replace_run a run run2 b [] h1 h2
  simp only [getDiskStatsForHostname, hcmd, hcmd2]
  cases err with
  | some e => rfl
  | none => exact statsLoop_congr pf hostName _ _ hfields

/-- C16 witness: a two-line output, against the same output with `\r\n` line endings and
against the same output with the single space after `ext4` replaced by a tab and two
spaces. -/
theorem C16_whitespace_insensitive_witness :
    getDiskStatsForHostname sampleParseFloat
        (commandPrinting "Filesystem Size Used\next4 1000000 45.0 a b c d e 100 50\n") "sda1" =
      getDiskStatsForHostname sampleParseFloat
        (commandPrinting "Filesystem Size Used\r\next4 1000000 45.0 a b c d e 100 50\r\n")
        "sda1" ∧
    getDiskStatsForHostname sampleParseFloat
        (commandPrinting "Filesystem Size Used\next4 1000000 45.0 a b c d e 100 50\n") "sda1" =
      getDiskStatsForHostname sampleParseFloat
        (commandPrinting "Filesystem Size Used\next4\t  1000000 45.0 a b c d e 100 50\n")
        "sda1" :=
  ⟨C16_whitespace_insensitive sampleParseFloat
      (commandPrinting "Filesystem Size Used\next4 1000000 45.0 a b c d e 100 50\n")
      (commandPrinting "Filesystem Size Used\r\next4 1000000 45.0 a b c d e 100 50\r\n")
      "sda1" "Filesystem Size Used\next4 1000000 45.0 a b c d e 100 50\n"
      "Filesystem Size Used\r\next4 1000000 45.0 a b c d e 100 50\r\n" none rfl rfl
      (Or.inr (Or.inl (by decide))),
    C16_whitespace_insensitive sampleParseFloat
      (commandPrinting "Filesystem Size Used\next4 1000000 45.0 a b c d e 100 50\n")
      (commandPrinting "Filesystem Size Used\next4\t  1000000 45.0 a b c d e 100 50\n")
      "sda1" "Filesystem Size Used\next4 1000000 45.0 a b c d e 100 50\n"
      "Filesystem Size Used\next4\t  1000000 45.0 a b c d e 100 50\n" none rfl rfl
      (Or.inr (Or.inr ⟨"Filesystem Size Used\next4".data, [' '], ['\t', ' ', ' '],
        "1000000 45.0 a b c d e 100 50\n".data, by decide, by decide, by decide,
        by decide⟩))⟩

end DiskExporter
